import Mathlib

/-!
Shallow embedding of the xdimmer daemon (src/xdimmer.c) for verification.

Modelling conventions:
* C `float` values are modelled as exact rationals (`ℚ`).  All the
  arithmetic the program performs on brightness percentages and lux values
  (addition, subtraction, division by a step count, casts to `int`,
  `round`) is translated exactly.
* The single-threaded control loop interacts with the outside world through
  one multiplexed wait point (`XPeekEventOrTimeout`).  The outside world is
  modelled as a finite timeline `List Arrival`: an `Arrival.sig m` entry is
  a POSIX signal being delivered (its handler enqueues a byte on the
  self-pipe, and for SIGINT/SIGTERM also sets the `exiting` flag, exactly
  as `bail` does), an `Arrival.x e` entry is an X event becoming readable,
  and `Arrival.tick` is a poll timeout expiring.
* Device ports record every write into a ghost trace `writes`; the device
  is modelled as faithfully returning the last written percentage.
  Ghost traces `calls` (every `stepper` invocation) and `armed` (every
  `set_alarm` call) record the other observable actions.
* The outer `for (;;)` loop of `xloop` is run on explicit fuel; a run can
  end by `break` (`LoopEnd.brk`), by blocking forever on an empty timeline
  (`LoopEnd.blocked`), or by exhausting fuel (`LoopEnd.fuel`).
-/

namespace Xdimmer

/-- C truncation cast `(int)q`: rounds toward zero. -/
def ctrunc (q : ℚ) : ℤ := if q < 0 then -⌊-q⌋ else ⌊q⌋

/-- C `round(q)`: rounds half away from zero. -/
def cround (q : ℚ) : ℤ := if q < 0 then -⌊-q + 1/2⌋ else ⌊q + 1/2⌋

/-- The three self-pipe messages (`MSG_EXIT`, `MSG_DIM`, `MSG_BRIGHTEN`). -/
inductive Msg where
  | mexit
  | mdim
  | mbrighten
deriving DecidableEq

/-- X events as far as `xloop` distinguishes them: an `XSyncAlarmNotifyEvent`
matching the current idle alarm, one matching the current reset alarm, or
anything else. -/
inductive XEv where
  | idleAlarm
  | resetAlarm
  | other
deriving DecidableEq

/-- One entry of the external timeline observed at the wait point. -/
inductive Arrival where
  | tick
  | sig (m : Msg)
  | x (e : XEv)
deriving DecidableEq

/-- Which alarm `set_alarm` is re-arming. -/
inductive AlarmKind where
  | idle
  | reset
deriving DecidableEq

/-- Device write channels. -/
inductive Chan where
  | screen
  | kbd
deriving DecidableEq

/-- Ghost record of one `stepper` invocation and its arguments. -/
structure StepCall where
  scr : ℚ
  kbd : ℚ
  steps : Nat
  inter : Bool
deriving DecidableEq

/-- The engine configuration: the command line options consumed by the core
(`dim_screen`, `dim_kbd`, `use_als`, `dim_pct`, `dim_steps`,
`brighten_steps`).  `strtonum` bounds guarantee `1 ≤ dim_steps ≤ 100` and
`1 ≤ brighten_steps ≤ 100` in the real program. -/
structure Cfg where
  dim_screen : Bool
  dim_kbd : Bool
  use_als : Bool
  dim_pct : ℚ
  dim_steps : Nat
  brighten_steps : Nat
deriving DecidableEq

/-- The mutable globals of xdimmer.c plus the device state and ghost traces.
`backlight`/`kbd_backlight` are the saved restore targets, `als` the last
accepted lux sample (all three initialised to -1 in the C source);
`screen_dev`/`kbd_dev` model the percentage the device currently reports;
`luxs` models the pending ambient sensor readings consumed by `als_fetch`. -/
structure St where
  xQ : List XEv
  pipeQ : List Msg
  exiting : Bool
  dimmed : Bool
  force_dim : Bool
  force_brighten : Bool
  backlight : ℚ
  kbd_backlight : ℚ
  als : ℚ
  luxs : List ℚ
  screen_dev : ℚ
  kbd_dev : ℚ
  writes : List (Chan × ℚ)
  calls : List StepCall
  armed : List AlarmKind
deriving DecidableEq

/-- Model of `backlight_op(OP_SET, v)`: write the screen percentage (ghost-recorded). -/
def backlight_set (v : ℚ) (s : St) : St :=
  {s with screen_dev := v, writes := s.writes ++ [(Chan.screen, v)]}

/-- Model of `kbd_backlight_op(OP_SET, v)`: write the keyboard percentage. -/
def kbd_backlight_set (v : ℚ) (s : St) : St :=
  {s with kbd_dev := v, writes := s.writes ++ [(Chan.kbd, v)]}

/-- Model of `set_alarm`: ghost-records which alarm was (re)armed. -/
def set_alarm (k : AlarmKind) (s : St) : St :=
  {s with armed := s.armed ++ [k]}

/-- The read side of the self-pipe (the `switch (msg)` in
`XPeekEventOrTimeout`): consuming a message sets the corresponding flag. -/
def applyMsg (m : Msg) (s : St) : St :=
  match m with
  | .mexit => {s with exiting := true}
  | .mdim => {s with force_dim := true}
  | .mbrighten => {s with force_brighten := true}

/-- A signal handler firing (`bail`, `sigusr1`, `sigusr2`): the byte is
enqueued on the pipe, and `bail` additionally sets `exiting` immediately. -/
def deliverSig (m : Msg) (s : St) : St :=
  {s with pipeQ := s.pipeQ ++ [m],
          exiting := s.exiting || (m == Msg.mexit)}

/-- Model of `XPeekEventOrTimeout(dpy, &e, msecs)`.  `inftim` is `msecs == 0`
(`poll` blocks forever, as in the non-ALS outer wait).  Returns
`some (true, _)` when an event or message is observed (an X event is only
peeked, not dequeued), `some (false, _)` on a poll timeout, and `none` when
an infinite wait blocks on an exhausted timeline. -/
def XPeekEventOrTimeout (inftim : Bool) (s : St) :
    List Arrival → Option (Bool × St × List Arrival)
  | [] =>
    match s.xQ with
    | _ :: _ => some (true, s, [])
    | [] =>
      match s.pipeQ with
      | m :: rest => some (true, applyMsg m {s with pipeQ := rest}, [])
      | [] => if inftim then none else some (false, s, [])
  | a :: rest =>
    match s.xQ with
    | _ :: _ => some (true, s, a :: rest)
    | [] =>
      match s.pipeQ with
      | m :: mrest => some (true, applyMsg m {s with pipeQ := mrest}, a :: rest)
      | [] =>
        match a with
        | .tick =>
          if inftim then XPeekEventOrTimeout inftim s rest
          else some (false, s, rest)
        | .sig m => XPeekEventOrTimeout inftim (deliverSig m s) rest
        | .x e => XPeekEventOrTimeout inftim {s with xQ := [e]} rest

/-- Unfolding equation of the wait point on an exhausted timeline. -/
theorem xpeek_nil_eq (inftim : Bool) (s : St) :
    XPeekEventOrTimeout inftim s [] =
      (match s.xQ with
       | _ :: _ => some (true, s, ([] : List Arrival))
       | [] =>
         match s.pipeQ with
         | m :: rest => some (true, applyMsg m {s with pipeQ := rest}, ([] : List Arrival))
         | [] => if inftim then none else some (false, s, [])) := rfl

/-- Unfolding equation of the wait point on a nonempty timeline. -/
theorem xpeek_cons_eq (inftim : Bool) (s : St) (a : Arrival) (rest : List Arrival) :
    XPeekEventOrTimeout inftim s (a :: rest) =
      (match s.xQ with
       | _ :: _ => some (true, s, a :: rest)
       | [] =>
         match s.pipeQ with
         | m :: mrest => some (true, applyMsg m {s with pipeQ := mrest}, a :: rest)
         | [] =>
           match a with
           | .tick =>
             if inftim then XPeekEventOrTimeout inftim s rest
             else some (false, s, rest)
           | .sig m => XPeekEventOrTimeout inftim (deliverSig m s) rest
           | .x e => XPeekEventOrTimeout inftim {s with xQ := [e]} rest) := rfl

/-- Whether `stepper` drives the screen channel: `dim_screen || use_als`. -/
def screenOn (cfg : Cfg) : Bool := cfg.dim_screen || cfg.use_als

/-- The per-device step increment computed at the top of `stepper`: zero
unless the channel is enabled and target and current truncate to different
integer percentages. -/
def stepIncOf (en : Bool) (target cur : ℚ) (steps : Nat) : ℚ :=
  if en = true ∧ ctrunc target ≠ ctrunc cur then (target - cur) / (steps : ℚ)
  else 0

/-- The body of one step `j` of the loop (lines 422-438): write the screen
value when the screen channel is active, then the keyboard value when
keyboard dimming is enabled. -/
def stepWrite (cfg : Cfg) (vb vk : ℚ) (s : St) : St :=
  let s1 := if screenOn cfg then backlight_set vb s else s
  if cfg.dim_kbd then kbd_backlight_set vk s1 else s1

/-- The `for (j = 1; j <= steps; j++)` loop of `stepper`, counting the
remaining steps down (`r+1` remaining, the last step is `r = 0`): on the
final step the exact target is written, otherwise the running value is
advanced by the increment; when `inter` is set the wait point is polled
with a 1ms timeout after the writes and any observed event aborts the run.
The returned `Bool` is `true` when all steps completed. -/
def stepRun (cfg : Cfg) (nB nK inc kinc : ℚ) (inter : Bool) :
    Nat → ℚ → ℚ → St → List Arrival → St × List Arrival × Bool
  | 0, _, _, s, env => (s, env, true)
  | r + 1, tb, tk, s, env =>
    let tb' := if r = 0 then nB else tb + inc
    let tk' := if r = 0 then nK else tk + kinc
    let s2 := stepWrite cfg tb' tk' s
    if inter then
      match XPeekEventOrTimeout false s2 env with
      | some (true, s3, env3) => (s3, env3, false)
      | some (false, s3, env3) => stepRun cfg nB nK inc kinc inter r tb' tk' s3 env3
      | none => stepRun cfg nB nK inc kinc inter r tb' tk' s2 env
    else stepRun cfg nB nK inc kinc inter r tb' tk' s2 env

/-- Model of `stepper(new_backlight, new_kbd_backlight, steps, inter)`: reads each
enabled device, computes the per-device increments, returns immediately
when both are zero, otherwise discards stale X events (`XSync(dpy, True)`)
and runs the step loop.  The invocation is ghost-recorded in `calls`. -/
def stepper (cfg : Cfg) (new_backlight new_kbd_backlight : ℚ) (steps : Nat)
    (inter : Bool) (s0 : St) (env : List Arrival) : St × List Arrival × Bool :=
  let s := {s0 with calls := s0.calls ++
    [⟨new_backlight, new_kbd_backlight, steps, inter⟩]}
  let step_inc := stepIncOf (screenOn cfg) new_backlight s.screen_dev steps
  let kbd_step_inc := stepIncOf cfg.dim_kbd new_kbd_backlight s.kbd_dev steps
  if step_inc = 0 ∧ kbd_step_inc = 0 then (s, env, true)
  else
    stepRun cfg new_backlight new_kbd_backlight step_inc kbd_step_inc inter
      steps s.screen_dev s.kbd_dev {s with xQ := []} env

/-- The ALS profile table `als_settings` (label, min lux, screen %, kbd %). -/
structure AlsSetting where
  label : String
  min_lux : ℤ
  backlight : ℤ
  kbd_backlight : ℤ
deriving DecidableEq

/-- The nine entries of `als_settings`, ascending by `min_lux`. -/
def als_settings : List AlsSetting :=
  [⟨"pitch black", 0, 20, 80⟩,
   ⟨"very dark", 11, 30, 70⟩,
   ⟨"dark indoors", 51, 40, 60⟩,
   ⟨"dim indoors", 201, 50, 50⟩,
   ⟨"normal indoors", 401, 60, 40⟩,
   ⟨"bright indoors", 1001, 70, 30⟩,
   ⟨"dim outdoors", 5001, 80, 20⟩,
   ⟨"cloudy outdoors", 10001, 90, 10⟩,
   ⟨"sunlight", 30001, 100, 0⟩]

/-- The body of the profile-selection loop: skip entries with
`lux < min_lux` (the `continue`), stop at the first remaining one (the
`break`). -/
def als_pick_from (lux : ℚ) : List AlsSetting → Option AlsSetting
  | [] => none
  | a :: rest => if lux < (a.min_lux : ℚ) then als_pick_from lux rest else some a

/-- The profile-selection loop of `als_fetch`: walk the table from the
highest index down. -/
def als_pick (lux : ℚ) : Option AlsSetting :=
  als_pick_from lux als_settings.reverse

/-- The body of `als_fetch` after the hysteresis check: apply the selected
profile entry.  The keyboard target changes only when keyboard dimming is
enabled and its rounded value differs; the screen target changes when its
rounded value differs; `stepper(tbacklight, tkbd_backlight, dim_steps, 0)`
runs when either comparison at line 693 fires, and finally the new targets
become the stored `backlight`/`kbd_backlight` and `als` becomes `lux`. -/
def alsApply (cfg : Cfg) (lux : ℚ) (s : St) (env : List Arrival) :
    St × List Arrival :=
  match als_pick lux with
  | none => ({s with als := lux}, env)
  | some a =>
    let tkbd := if cfg.dim_kbd ∧ cround s.kbd_backlight ≠ a.kbd_backlight
      then (a.kbd_backlight : ℚ) else s.kbd_backlight
    let tbl := if cround s.backlight ≠ a.backlight
      then (a.backlight : ℚ) else s.backlight
    let r :=
      if (cround s.kbd_backlight : ℚ) ≠ tkbd ∨ (cround s.backlight : ℚ) ≠ tbl
      then
        let r0 := stepper cfg tbl tkbd cfg.dim_steps false s env
        (r0.1, r0.2.1)
      else (s, env)
    ({r.1 with backlight := tbl, kbd_backlight := tkbd, als := lux}, r.2)

/-- Model of `als_fetch`: consume the next lux sample (a missing sample models the
`sysctl` failure and is skipped).  A first-ever sample (`(int)als < 0`) is
recorded and applied; a sample whose truncated distance from the last
accepted one is under 10 is absorbed without a profile lookup; any other
sample goes through profile selection. -/
def als_fetch (cfg : Cfg) (s : St) (env : List Arrival) : St × List Arrival :=
  match s.luxs with
  | [] => (s, env)
  | lux :: lrest =>
    let s0 := {s with luxs := lrest}
    if ctrunc s0.als < 0 then alsApply cfg lux {s0 with als := lux} env
    else if |ctrunc lux - ctrunc s0.als| < 10 then ({s0 with als := lux}, env)
    else alsApply cfg lux s0 env

/-- Outcome of one `xloop` iteration: keep looping, `break`, or block
forever inside the wait. -/
inductive Step where
  | cont
  | brk
  | blocked
deriving DecidableEq

/-- The tail of an `xloop` iteration once `do_dim`/`do_brighten` are known
(lines 324-345): the dim branch arms the reset alarm, snapshots the current
brightness of each enabled device into the restore targets, runs an
interruptible `stepper` down to `dim_pct` (a forced dim uses 1 step) and
sets `dimmed`; the brighten branch refreshes the ALS reading, re-arms the
idle alarm, runs a non-interruptible `stepper` back to the stored targets
(a forced brighten uses 1 step) and clears `dimmed`.  Both force flags are
cleared at the end of the iteration. -/
def afterAlarm (cfg : Cfg) (do_dim do_brighten : Bool) (s : St)
    (env : List Arrival) : Step × St × List Arrival :=
  if do_dim = true ∧ s.dimmed = false then
    let s1 := set_alarm .reset s
    let s2 := if cfg.dim_screen then {s1 with backlight := s1.screen_dev} else s1
    let s3 := if cfg.dim_kbd then {s2 with kbd_backlight := s2.kbd_dev} else s2
    let r := stepper cfg cfg.dim_pct 0 (if s3.force_dim then 1 else cfg.dim_steps)
      true s3 env
    (.cont, {r.1 with dimmed := true, force_dim := false, force_brighten := false},
      r.2.1)
  else if do_brighten = true ∧ s.dimmed = true then
    let p := if cfg.use_als then als_fetch cfg s env else (s, env)
    let s2 := set_alarm .idle p.1
    let r := stepper cfg s2.backlight s2.kbd_backlight
      (if s2.force_brighten then 1 else cfg.brighten_steps) false s2 p.2
    (.cont, {r.1 with dimmed := false, force_dim := false, force_brighten := false},
      r.2.1)
  else (.cont, {s with force_dim := false, force_brighten := false}, env)

/-- One iteration of the `for (;;)` loop in `xloop`: wait at
`XPeekEventOrTimeout` (1s timeout when ALS polling, infinite otherwise); a
timeout polls the ALS when not dimmed; otherwise `break` when `exiting`,
act on a pending force flag, or consume the next X event (`XNextEvent`) and
decode which alarm fired. -/
def xloop_iter (cfg : Cfg) (s : St) (env : List Arrival) :
    Step × St × List Arrival :=
  match XPeekEventOrTimeout (!cfg.use_als) s env with
  | none => (.blocked, s, env)
  | some (false, s1, env1) =>
    if cfg.use_als = true ∧ s1.dimmed = false then
      let p := als_fetch cfg s1 env1
      (.cont, p.1, p.2)
    else (.cont, s1, env1)
  | some (true, s1, env1) =>
    if s1.exiting then (.brk, s1, env1)
    else if s1.force_dim then afterAlarm cfg true false s1 env1
    else if s1.force_brighten then afterAlarm cfg false true s1 env1
    else
      match s1.xQ with
      | [] => (.blocked, s1, env1)
      | e :: xrest =>
        let s2 := {s1 with xQ := xrest}
        if cfg.dim_screen = false ∧ cfg.dim_kbd = false then (.cont, s2, env1)
        else
          match e with
          | .idleAlarm => afterAlarm cfg true false s2 env1
          | .resetAlarm => afterAlarm cfg false true s2 env1
          | .other => (.cont, s2, env1)

/-- How a fuelled run of the `xloop` loop ended. -/
inductive LoopEnd where
  | brk
  | blocked
  | fuel
deriving DecidableEq

/-- Run the `xloop` loop for at most `fuel` iterations. -/
def xloop_go (cfg : Cfg) : Nat → St → List Arrival → LoopEnd × St × List Arrival
  | 0, s, env => (.fuel, s, env)
  | f + 1, s, env =>
    match xloop_iter cfg s env with
    | (.cont, s1, env1) => xloop_go cfg f s1 env1
    | (.brk, s1, env1) => (.brk, s1, env1)
    | (.blocked, s1, env1) => (.blocked, s1, env1)

/-- The write trace restricted to one channel. -/
def chanWrites (c : Chan) (l : List (Chan × ℚ)) : List ℚ :=
  l.filterMap (fun w => if w.1 = c then some w.2 else none)

/-- The sequence of values one channel of the step loop writes when it runs
`r` further steps from running value `tb` without being interrupted:
`tb + inc, tb + 2·inc, …` and the exact target on the final step. -/
def rampFrom (target inc : ℚ) : Nat → ℚ → List ℚ
  | 0, _ => []
  | r + 1, tb =>
    let v := if r = 0 then target else tb + inc
    v :: rampFrom target inc r v

/-- Fields of the engine state that the wait point never touches: consuming
a message or an X event only moves queue contents and sets flags. -/
def StFrame (s s' : St) : Prop :=
  s'.dimmed = s.dimmed ∧ s'.armed = s.armed ∧ s'.writes = s.writes ∧
  s'.calls = s.calls ∧ s'.screen_dev = s.screen_dev ∧ s'.kbd_dev = s.kbd_dev ∧
  s'.backlight = s.backlight ∧ s'.kbd_backlight = s.kbd_backlight ∧
  s'.als = s.als ∧ s'.luxs = s.luxs ∧ (s.exiting = true → s'.exiting = true)

theorem StFrame.refl (s : St) : StFrame s s := by
  simp [StFrame]

theorem StFrame.trans {s t u : St} (h1 : StFrame s t) (h2 : StFrame t u) :
    StFrame s u := by
  obtain ⟨a1, a2, a3, a4, a5, a6, a7, a8, a9, a10, a11⟩ := h1
  obtain ⟨b1, b2, b3, b4, b5, b6, b7, b8, b9, b10, b11⟩ := h2
  exact ⟨b1.trans a1, b2.trans a2, b3.trans a3, b4.trans a4, b5.trans a5,
    b6.trans a6, b7.trans a7, b8.trans a8, b9.trans a9, b10.trans a10,
    fun hx => b11 (a11 hx)⟩

/-- The wait point only consumes queue entries and raises flags; every other
engine field is untouched, and `exiting` is never cleared. -/
theorem xpeek_frame (inftim : Bool) :
    ∀ (env : List Arrival) (s : St) (b : Bool) (s' : St) (env' : List Arrival),
      XPeekEventOrTimeout inftim s env = some (b, s', env') → StFrame s s' := by
  intro env
  induction env with
  | nil =>
    intro s b s' env' h
    rw [xpeek_nil_eq] at h
    split at h
    · simp only [Option.some.injEq, Prod.mk.injEq] at h
      obtain ⟨-, h2, -⟩ := h
      subst h2
      exact StFrame.refl _
    · split at h
      · simp only [Option.some.injEq, Prod.mk.injEq] at h
        obtain ⟨-, h2, -⟩ := h
        subst h2
        rename_i m _ _
        cases m <;> simp [StFrame, applyMsg]
      · split at h
        · exact absurd h (by simp)
        · simp only [Option.some.injEq, Prod.mk.injEq] at h
          obtain ⟨-, h2, -⟩ := h
          subst h2
          exact StFrame.refl _
  | cons a rest ih =>
    intro s b s' env' h
    rw [xpeek_cons_eq] at h
    split at h
    · simp only [Option.some.injEq, Prod.mk.injEq] at h
      obtain ⟨-, h2, -⟩ := h
      subst h2
      exact StFrame.refl _
    · split at h
      · simp only [Option.some.injEq, Prod.mk.injEq] at h
        obtain ⟨-, h2, -⟩ := h
        subst h2
        rename_i m _ _
        cases m <;> simp [StFrame, applyMsg]
      · split at h
        · split at h
          · exact ih _ _ _ _ h
          · simp only [Option.some.injEq, Prod.mk.injEq] at h
            obtain ⟨-, h2, -⟩ := h
            subst h2
            exact StFrame.refl _
        · have hfr := ih _ _ _ _ h
          refine StFrame.trans ?_ hfr
          rename_i m _
          cases m <;> simp [StFrame, deliverSig] <;> tauto
        · have hfr := ih _ _ _ _ h
          refine StFrame.trans ?_ hfr
          simp [StFrame]

/-- A finite-timeout poll (`msecs != 0`) always returns. -/
theorem xpeek_false_isSome :
    ∀ (env : List Arrival) (s : St), (XPeekEventOrTimeout false s env).isSome := by
  intro env
  induction env with
  | nil =>
    intro s
    rw [xpeek_nil_eq]
    split
    · simp
    · split
      · simp
      · simp
  | cons a rest ih =>
    intro s
    rw [xpeek_cons_eq]
    split
    · simp
    · split
      · simp
      · split
        · simp
        · exact ih _
        · exact ih _

/-- Unfolding equation of the step loop with steps remaining. -/
theorem stepRun_succ_eq (cfg : Cfg) (nB nK inc kinc : ℚ) (inter : Bool)
    (r : Nat) (tb tk : ℚ) (s : St) (env : List Arrival) :
    stepRun cfg nB nK inc kinc inter (r + 1) tb tk s env =
      (let tb' := if r = 0 then nB else tb + inc
       let tk' := if r = 0 then nK else tk + kinc
       let s2 := stepWrite cfg tb' tk' s
       if inter then
         match XPeekEventOrTimeout false s2 env with
         | some (true, s3, env3) => (s3, env3, false)
         | some (false, s3, env3) =>
           stepRun cfg nB nK inc kinc inter r tb' tk' s3 env3
         | none => stepRun cfg nB nK inc kinc inter r tb' tk' s2 env
       else stepRun cfg nB nK inc kinc inter r tb' tk' s2 env) := rfl

theorem chanWrites_append (c : Chan) (l1 l2 : List (Chan × ℚ)) :
    chanWrites c (l1 ++ l2) = chanWrites c l1 ++ chanWrites c l2 := by
  simp [chanWrites]

theorem stepWrite_writes (cfg : Cfg) (vb vk : ℚ) (s : St) :
    (stepWrite cfg vb vk s).writes =
      s.writes ++ ((if screenOn cfg = true then [(Chan.screen, vb)] else []) ++
        (if cfg.dim_kbd = true then [(Chan.kbd, vk)] else [])) := by
  cases hS : screenOn cfg <;> cases hK : cfg.dim_kbd <;>
    simp [stepWrite, backlight_set, kbd_backlight_set, hS, hK]

theorem stepWrite_screen_dev (cfg : Cfg) (vb vk : ℚ) (s : St) :
    (stepWrite cfg vb vk s).screen_dev =
      (if screenOn cfg = true then vb else s.screen_dev) := by
  cases hS : screenOn cfg <;> cases hK : cfg.dim_kbd <;>
    simp [stepWrite, backlight_set, kbd_backlight_set, hS, hK]

theorem stepWrite_kbd_dev (cfg : Cfg) (vb vk : ℚ) (s : St) :
    (stepWrite cfg vb vk s).kbd_dev =
      (if cfg.dim_kbd = true then vk else s.kbd_dev) := by
  cases hS : screenOn cfg <;> cases hK : cfg.dim_kbd <;>
    simp [stepWrite, backlight_set, kbd_backlight_set, hS, hK]

@[simp]
theorem stepWrite_xQ (cfg : Cfg) (vb vk : ℚ) (s : St) :
    (stepWrite cfg vb vk s).xQ = s.xQ := by
  cases hS : screenOn cfg <;> cases hK : cfg.dim_kbd <;>
    simp [stepWrite, backlight_set, kbd_backlight_set, hS, hK]

@[simp]
theorem stepWrite_pipeQ (cfg : Cfg) (vb vk : ℚ) (s : St) :
    (stepWrite cfg vb vk s).pipeQ = s.pipeQ := by
  cases hS : screenOn cfg <;> cases hK : cfg.dim_kbd <;>
    simp [stepWrite, backlight_set, kbd_backlight_set, hS, hK]

@[simp]
theorem stepWrite_exiting (cfg : Cfg) (vb vk : ℚ) (s : St) :
    (stepWrite cfg vb vk s).exiting = s.exiting := by
  cases hS : screenOn cfg <;> cases hK : cfg.dim_kbd <;>
    simp [stepWrite, backlight_set, kbd_backlight_set, hS, hK]

@[simp]
theorem stepWrite_dimmed (cfg : Cfg) (vb vk : ℚ) (s : St) :
    (stepWrite cfg vb vk s).dimmed = s.dimmed := by
  cases hS : screenOn cfg <;> cases hK : cfg.dim_kbd <;>
    simp [stepWrite, backlight_set, kbd_backlight_set, hS, hK]

@[simp]
theorem stepWrite_backlight (cfg : Cfg) (vb vk : ℚ) (s : St) :
    (stepWrite cfg vb vk s).backlight = s.backlight := by
  cases hS : screenOn cfg <;> cases hK : cfg.dim_kbd <;>
    simp [stepWrite, backlight_set, kbd_backlight_set, hS, hK]

@[simp]
theorem stepWrite_kbd_backlight (cfg : Cfg) (vb vk : ℚ) (s : St) :
    (stepWrite cfg vb vk s).kbd_backlight = s.kbd_backlight := by
  cases hS : screenOn cfg <;> cases hK : cfg.dim_kbd <;>
    simp [stepWrite, backlight_set, kbd_backlight_set, hS, hK]

@[simp]
theorem stepWrite_als (cfg : Cfg) (vb vk : ℚ) (s : St) :
    (stepWrite cfg vb vk s).als = s.als := by
  cases hS : screenOn cfg <;> cases hK : cfg.dim_kbd <;>
    simp [stepWrite, backlight_set, kbd_backlight_set, hS, hK]

@[simp]
theorem stepWrite_luxs (cfg : Cfg) (vb vk : ℚ) (s : St) :
    (stepWrite cfg vb vk s).luxs = s.luxs := by
  cases hS : screenOn cfg <;> cases hK : cfg.dim_kbd <;>
    simp [stepWrite, backlight_set, kbd_backlight_set, hS, hK]

@[simp]
theorem stepWrite_calls (cfg : Cfg) (vb vk : ℚ) (s : St) :
    (stepWrite cfg vb vk s).calls = s.calls := by
  cases hS : screenOn cfg <;> cases hK : cfg.dim_kbd <;>
    simp [stepWrite, backlight_set, kbd_backlight_set, hS, hK]

@[simp]
theorem stepWrite_armed (cfg : Cfg) (vb vk : ℚ) (s : St) :
    (stepWrite cfg vb vk s).armed = s.armed := by
  cases hS : screenOn cfg <;> cases hK : cfg.dim_kbd <;>
    simp [stepWrite, backlight_set, kbd_backlight_set, hS, hK]

@[simp]
theorem stepWrite_force_dim (cfg : Cfg) (vb vk : ℚ) (s : St) :
    (stepWrite cfg vb vk s).force_dim = s.force_dim := by
  cases hS : screenOn cfg <;> cases hK : cfg.dim_kbd <;>
    simp [stepWrite, backlight_set, kbd_backlight_set, hS, hK]

@[simp]
theorem stepWrite_force_brighten (cfg : Cfg) (vb vk : ℚ) (s : St) :
    (stepWrite cfg vb vk s).force_brighten = s.force_brighten := by
  cases hS : screenOn cfg <;> cases hK : cfg.dim_kbd <;>
    simp [stepWrite, backlight_set, kbd_backlight_set, hS, hK]

/-- A non-interruptible step loop never aborts and never touches the
timeline. -/
theorem stepRun_noInter (cfg : Cfg) (nB nK inc kinc : ℚ) :
    ∀ (r : Nat) (tb tk : ℚ) (s : St) (env : List Arrival),
      (stepRun cfg nB nK inc kinc false r tb tk s env).2.2 = true ∧
      (stepRun cfg nB nK inc kinc false r tb tk s env).2.1 = env := by
  intro r
  induction r with
  | zero => intro tb tk s env; simp [stepRun]
  | succ n ih =>
    intro tb tk s env
    rw [stepRun_succ_eq]
    simpa using ih _ _ _ env

/-- If the step loop runs to completion, each enabled channel ends exactly
at its target: the device reads the target and the channel's last recorded
write is the target. -/
theorem stepRun_complete (cfg : Cfg) (nB nK inc kinc : ℚ) (inter : Bool) :
    ∀ (r : Nat) (tb tk : ℚ) (s : St) (env : List Arrival),
      1 ≤ r →
      (stepRun cfg nB nK inc kinc inter r tb tk s env).2.2 = true →
      (screenOn cfg = true →
        (stepRun cfg nB nK inc kinc inter r tb tk s env).1.screen_dev = nB ∧
        (chanWrites Chan.screen
          (stepRun cfg nB nK inc kinc inter r tb tk s env).1.writes).getLast? =
          some nB) ∧
      (cfg.dim_kbd = true →
        (stepRun cfg nB nK inc kinc inter r tb tk s env).1.kbd_dev = nK ∧
        (chanWrites Chan.kbd
          (stepRun cfg nB nK inc kinc inter r tb tk s env).1.writes).getLast? =
          some nK) := by
  have hdone : ∀ (s0 : St) (s2 : St),
      stepWrite cfg nB nK s0 = s2 →
      (screenOn cfg = true →
        s2.screen_dev = nB ∧
        (chanWrites Chan.screen s2.writes).getLast? = some nB) ∧
      (cfg.dim_kbd = true →
        s2.kbd_dev = nK ∧
        (chanWrites Chan.kbd s2.writes).getLast? = some nK) := by
    rintro s0 s2 rfl
    constructor
    · intro hS
      refine ⟨by simp [stepWrite_screen_dev, hS], ?_⟩
      rw [stepWrite_writes, chanWrites_append, chanWrites_append]
      cases hK : cfg.dim_kbd <;>
        simp [hS, hK, chanWrites, List.getLast?_append]
    · intro hK
      refine ⟨by simp [stepWrite_kbd_dev, hK], ?_⟩
      rw [stepWrite_writes, chanWrites_append, chanWrites_append]
      cases hS : screenOn cfg <;>
        simp [hS, hK, chanWrites, List.getLast?_append]
  intro r
  induction r with
  | zero => intro tb tk s env hr; omega
  | succ n ih =>
    intro tb tk s env hr hc
    rcases Nat.eq_zero_or_pos n with hn | hn
    · -- final step: the exact targets are written
      subst hn
      rw [stepRun_succ_eq] at hc ⊢
      simp only [reduceIte] at hc ⊢
      by_cases hi : inter = true
      · rw [if_pos hi] at hc ⊢
        rcases hv : XPeekEventOrTimeout false (stepWrite cfg nB nK s) env with
          _ | ⟨b, s3, env3⟩
        · have hs := xpeek_false_isSome env (stepWrite cfg nB nK s)
          rw [hv] at hs
          simp at hs
        · rw [hv] at hc
          cases b
          · -- 1ms poll timed out right after the final write
            have hfr := xpeek_frame false env (stepWrite cfg nB nK s) false s3 env3 hv
            obtain ⟨-, -, hw, -, hsd, hkd, -, -, -, -, -⟩ := hfr
            have hd := hdone s (stepWrite cfg nB nK s) rfl
            exact ⟨fun hS =>
                ⟨show s3.screen_dev = nB from hsd ▸ (hd.1 hS).1,
                 show (chanWrites Chan.screen s3.writes).getLast? = some nB from
                   hw ▸ (hd.1 hS).2⟩,
              fun hK =>
                ⟨show s3.kbd_dev = nK from hkd ▸ (hd.2 hK).1,
                 show (chanWrites Chan.kbd s3.writes).getLast? = some nK from
                   hw ▸ (hd.2 hK).2⟩⟩
          · -- an event right after the final write: not a completed run
            exact absurd (show false = true from hc) (by simp)
      · have hni : ¬ (inter = true) := hi
        rw [if_neg hni] at hc ⊢
        exact hdone s (stepWrite cfg nB nK s) rfl
    · -- an intermediate step: recurse
      have hn0 : n ≠ 0 := by omega
      rw [stepRun_succ_eq] at hc ⊢
      simp only [if_neg hn0] at hc ⊢
      by_cases hi : inter = true
      · rw [if_pos hi] at hc ⊢
        rcases hv : XPeekEventOrTimeout false
            (stepWrite cfg (tb + inc) (tk + kinc) s) env with _ | ⟨b, s3, env3⟩
        · have hs := xpeek_false_isSome env (stepWrite cfg (tb + inc) (tk + kinc) s)
          rw [hv] at hs
          simp at hs
        · rw [hv] at hc
          cases b
          · exact ih (tb + inc) (tk + kinc) s3 env3 hn hc
          · exact absurd (show false = true from hc) (by simp)
      · have hni : ¬ (inter = true) := hi
        rw [if_neg hni] at hc ⊢
        exact ih (tb + inc) (tk + kinc) (stepWrite cfg (tb + inc) (tk + kinc) s) env hn hc

/-- The increment `stepIncOf` is zero whenever the channel is disabled. -/
theorem stepIncOf_en {en : Bool} {t c : ℚ} {k : Nat}
    (h : stepIncOf en t c k ≠ 0) : en = true := by
  unfold stepIncOf at h
  split at h
  · rename_i hcond
    exact hcond.1
  · simp at h

/-- A nonzero increment implies target and current truncate differently. -/
theorem stepIncOf_ne_trunc {en : Bool} {t c : ℚ} {k : Nat}
    (h : stepIncOf en t c k ≠ 0) : ctrunc t ≠ ctrunc c := by
  unfold stepIncOf at h
  split at h
  · rename_i hcond
    exact hcond.2
  · simp at h

/-- A non-interruptible `stepper` call always reports completion. -/
theorem stepper_noInter_completes (cfg : Cfg) (nB nK : ℚ) (steps : Nat)
    (s : St) (env : List Arrival) :
    (stepper cfg nB nK steps false s env).2.2 = true := by
  unfold stepper
  simp only
  split
  · rfl
  · exact (stepRun_noInter cfg nB nK _ _ steps _ _ _ env).1

/-- A non-interruptible `stepper` call leaves the timeline untouched. -/
theorem stepper_noInter_env (cfg : Cfg) (nB nK : ℚ) (steps : Nat)
    (s : St) (env : List Arrival) :
    (stepper cfg nB nK steps false s env).2.1 = env := by
  unfold stepper
  simp only
  split
  · rfl
  · exact (stepRun_noInter cfg nB nK _ _ steps _ _ _ env).2

/-- C1: for every starting value, target and step count `steps ≥ 1` whose
per-device step increment is nonzero, a stepper run that completes (is not
interrupted) ends with the device write being exactly the target value, on
the screen and the keyboard channel independently: the device reads the
exact target and the channel's final recorded write is the exact target
(the `j == steps` branch assigns the target rather than the accumulated
sum). -/
theorem c1_stepper_final_write_exact (cfg : Cfg) (nB nK : ℚ) (steps : Nat)
    (inter : Bool) (s : St) (env : List Arrival)
    (hsteps : 1 ≤ steps)
    (hc : (stepper cfg nB nK steps inter s env).2.2 = true) :
    (stepIncOf (screenOn cfg) nB s.screen_dev steps ≠ 0 →
      (stepper cfg nB nK steps inter s env).1.screen_dev = nB ∧
      (chanWrites Chan.screen
        (stepper cfg nB nK steps inter s env).1.writes).getLast? = some nB) ∧
    (stepIncOf cfg.dim_kbd nK s.kbd_dev steps ≠ 0 →
      (stepper cfg nB nK steps inter s env).1.kbd_dev = nK ∧
      (chanWrites Chan.kbd
        (stepper cfg nB nK steps inter s env).1.writes).getLast? = some nK) := by
  unfold stepper at hc ⊢
  simp only at hc ⊢
  by_cases hz : stepIncOf (screenOn cfg) nB s.screen_dev steps = 0 ∧
      stepIncOf cfg.dim_kbd nK s.kbd_dev steps = 0
  · rw [if_pos hz] at hc ⊢
    exact ⟨fun hne => absurd hz.1 hne, fun hne => absurd hz.2 hne⟩
  · rw [if_neg hz] at hc ⊢
    have hall := stepRun_complete cfg nB nK
      (stepIncOf (screenOn cfg) nB s.screen_dev steps)
      (stepIncOf cfg.dim_kbd nK s.kbd_dev steps) inter steps
      s.screen_dev s.kbd_dev _ env hsteps hc
    exact ⟨fun hne => hall.1 (stepIncOf_en hne),
           fun hne => hall.2 (stepIncOf_en hne)⟩

/-- Configuration of the default command line (`-p 10 -s 20 -b 5`, screen
dimming only), used by concrete scenario runs. -/
def defCfg : Cfg := ⟨true, false, false, 10, 20, 5⟩

@[simp]
theorem defCfg_dim_screen : defCfg.dim_screen = true := rfl

@[simp]
theorem defCfg_dim_kbd : defCfg.dim_kbd = false := rfl

@[simp]
theorem defCfg_use_als : defCfg.use_als = false := rfl

@[simp]
theorem defCfg_dim_pct : defCfg.dim_pct = 10 := rfl

@[simp]
theorem defCfg_dim_steps : defCfg.dim_steps = 20 := rfl

@[simp]
theorem defCfg_brighten_steps : defCfg.brighten_steps = 5 := rfl

@[simp]
theorem screenOn_defCfg : screenOn defCfg = true := rfl

/-- A freshly started engine state whose screen reads 60% and whose
keyboard device reads 0, with the C initial values of the globals. -/
def st60 : St := ⟨[], [], false, false, false, false, -1, -1, -1, [], 60, 0, [], [], []⟩

theorem c1_witness :
    1 ≤ 20 ∧
    (stepper defCfg 10 0 20 false st60 []).2.2 = true ∧
    stepIncOf (screenOn defCfg) 10 st60.screen_dev 20 ≠ 0 ∧
    ((stepper defCfg 10 0 20 false st60 []).1.screen_dev = 10 ∧
     (chanWrites Chan.screen
       (stepper defCfg 10 0 20 false st60 []).1.writes).getLast? = some 10) := by
  have hc := stepper_noInter_completes defCfg 10 0 20 st60 []
  have hinc : stepIncOf (screenOn defCfg) 10 st60.screen_dev 20 ≠ 0 := by
    norm_num [stepIncOf, ctrunc, screenOn, defCfg, st60]
  exact ⟨by norm_num, hc, hinc,
    (c1_stepper_final_write_exact defCfg 10 0 20 false st60 [] (by norm_num) hc).1 hinc⟩

/-- The wait point returns immediately when an X event is already queued
(`XPending` short-circuits the poll; the event is only peeked). -/
theorem xpeek_xq_cons (inftim : Bool) (s : St) (env : List Arrival)
    (e : XEv) (xs : List XEv) (h : s.xQ = e :: xs) :
    XPeekEventOrTimeout inftim s env = some (true, s, env) := by
  cases env with
  | nil => rw [xpeek_nil_eq, h]
  | cons a rest => rw [xpeek_cons_eq, h]

/-- With no X event pending, the wait point consumes the head of the pipe
and sets the corresponding flag. -/
theorem xpeek_pipe (inftim : Bool) (s : St) (env : List Arrival)
    (m : Msg) (q : List Msg) (hx : s.xQ = []) (hp : s.pipeQ = m :: q) :
    XPeekEventOrTimeout inftim s env =
      some (true, applyMsg m {s with pipeQ := q}, env) := by
  cases env with
  | nil => rw [xpeek_nil_eq, hx, hp]
  | cons a rest => rw [xpeek_cons_eq, hx, hp]

/-- A quiet finite-timeout poll times out on a `tick`. -/
theorem xpeek_tick (s : St) (rest : List Arrival)
    (hx : s.xQ = []) (hp : s.pipeQ = []) :
    XPeekEventOrTimeout false s (Arrival.tick :: rest) = some (false, s, rest) := by
  rw [xpeek_cons_eq, hx, hp]
  rfl

/-- An infinite-timeout poll skips over a `tick`. -/
theorem xpeek_tick_inf (s : St) (rest : List Arrival)
    (hx : s.xQ = []) (hp : s.pipeQ = []) :
    XPeekEventOrTimeout true s (Arrival.tick :: rest) =
      XPeekEventOrTimeout true s rest := by
  rw [xpeek_cons_eq, hx, hp]
  rfl

/-- A signal delivery runs the handler and keeps waiting. -/
theorem xpeek_sig (inftim : Bool) (s : St) (m : Msg) (rest : List Arrival)
    (hx : s.xQ = []) (hp : s.pipeQ = []) :
    XPeekEventOrTimeout inftim s (Arrival.sig m :: rest) =
      XPeekEventOrTimeout inftim (deliverSig m s) rest := by
  rw [xpeek_cons_eq, hx, hp]

/-- An X event arrival becomes readable and is then peeked. -/
theorem xpeek_x (inftim : Bool) (s : St) (e : XEv) (rest : List Arrival)
    (hx : s.xQ = []) (hp : s.pipeQ = []) :
    XPeekEventOrTimeout inftim s (Arrival.x e :: rest) =
      XPeekEventOrTimeout inftim {s with xQ := [e]} rest := by
  rw [xpeek_cons_eq, hx, hp]

/-- Interrupting a quiet interruptible step loop: with `k-1` timeouts and
then an X event on the timeline, exactly the writes of steps `1..k` happen
(`k` per enabled channel), each channel's last write and device value is
the interpolated value `start + k · inc`, and the run reports an abort. -/
theorem stepRun_quiet_interrupt (cfg : Cfg) (nB nK inc kinc : ℚ) (e : XEv)
    (rest : List Arrival) :
    ∀ (k r : Nat) (tb tk : ℚ) (s : St),
      1 ≤ k → k < r → s.xQ = [] → s.pipeQ = [] →
      (stepRun cfg nB nK inc kinc true r tb tk s
        (List.replicate (k-1) Arrival.tick ++ Arrival.x e :: rest)).2.2 = false ∧
      (screenOn cfg = true →
        (stepRun cfg nB nK inc kinc true r tb tk s
          (List.replicate (k-1) Arrival.tick ++ Arrival.x e :: rest)).1.screen_dev =
            tb + k * inc ∧
        (chanWrites Chan.screen
          (stepRun cfg nB nK inc kinc true r tb tk s
            (List.replicate (k-1) Arrival.tick ++ Arrival.x e :: rest)).1.writes).getLast? =
          some (tb + k * inc)) ∧
      (cfg.dim_kbd = true →
        (stepRun cfg nB nK inc kinc true r tb tk s
          (List.replicate (k-1) Arrival.tick ++ Arrival.x e :: rest)).1.kbd_dev =
            tk + k * kinc ∧
        (chanWrites Chan.kbd
          (stepRun cfg nB nK inc kinc true r tb tk s
            (List.replicate (k-1) Arrival.tick ++ Arrival.x e :: rest)).1.writes).getLast? =
          some (tk + k * kinc)) ∧
      (stepRun cfg nB nK inc kinc true r tb tk s
        (List.replicate (k-1) Arrival.tick ++ Arrival.x e :: rest)).1.writes.length =
        s.writes.length + ((if screenOn cfg = true then k else 0) +
          (if cfg.dim_kbd = true then k else 0)) := by
  intro k
  induction k with
  | zero => intro r tb tk s hk; omega
  | succ n ih =>
    intro r tb tk s hk hkr hx hp
    have hx2 : (stepWrite cfg (tb + inc) (tk + kinc) s).xQ = [] := by
      simpa using hx
    have hp2 : (stepWrite cfg (tb + inc) (tk + kinc) s).pipeQ = [] := by
      simpa using hp
    obtain ⟨r', rfl⟩ : ∃ r', r = r' + 1 := ⟨r - 1, by omega⟩
    have hr0 : r' ≠ 0 := by omega
    rcases Nat.eq_zero_or_pos n with hn | hn
    · -- k = 1: the event arrives right after the first step's writes
      subst hn
      have henv : List.replicate (0 + 1 - 1) Arrival.tick ++ Arrival.x e :: rest =
          Arrival.x e :: rest := by simp
      have hstep : stepRun cfg nB nK inc kinc true (r' + 1) tb tk s
          (Arrival.x e :: rest) =
          ({stepWrite cfg (tb + inc) (tk + kinc) s with xQ := [e]}, rest, false) := by
        rw [stepRun_succ_eq]
        simp only [if_neg hr0]
        rw [xpeek_x false (stepWrite cfg (tb + inc) (tk + kinc) s) e rest hx2 hp2,
          xpeek_xq_cons false _ rest e [] (by simp)]
        rfl
      rw [henv, hstep]
      refine ⟨rfl, ?_, ?_, ?_⟩
      · intro hS
        constructor
        · show (stepWrite cfg (tb + inc) (tk + kinc) s).screen_dev = tb + (0+1 : ℕ) * inc
          rw [stepWrite_screen_dev]
          simp [hS]
        · show (chanWrites Chan.screen
            (stepWrite cfg (tb + inc) (tk + kinc) s).writes).getLast? =
              some (tb + (0+1 : ℕ) * inc)
          rw [stepWrite_writes, chanWrites_append, chanWrites_append]
          cases hK : cfg.dim_kbd <;>
            simp [hS, hK, chanWrites, List.getLast?_append]
      · intro hK
        constructor
        · show (stepWrite cfg (tb + inc) (tk + kinc) s).kbd_dev = tk + (0+1 : ℕ) * kinc
          rw [stepWrite_kbd_dev]
          simp [hK]
        · show (chanWrites Chan.kbd
            (stepWrite cfg (tb + inc) (tk + kinc) s).writes).getLast? =
              some (tk + (0+1 : ℕ) * kinc)
          rw [stepWrite_writes, chanWrites_append, chanWrites_append]
          cases hS : screenOn cfg <;>
            simp [hS, hK, chanWrites, List.getLast?_append]
      · show (stepWrite cfg (tb + inc) (tk + kinc) s).writes.length = _
        rw [stepWrite_writes]
        cases hS : screenOn cfg <;> cases hK : cfg.dim_kbd <;> simp [hS, hK]
    · -- k ≥ 2: the first poll times out, recurse on the rest of the ramp
      have hrep : List.replicate (n + 1 - 1) Arrival.tick ++ Arrival.x e :: rest =
          Arrival.tick :: (List.replicate (n - 1) Arrival.tick ++ Arrival.x e :: rest) := by
        have hn1 : n + 1 - 1 = (n - 1) + 1 := by omega
        rw [hn1, List.replicate_succ]
        simp
      have hstep : stepRun cfg nB nK inc kinc true (r' + 1) tb tk s
          (Arrival.tick :: (List.replicate (n - 1) Arrival.tick ++ Arrival.x e :: rest)) =
          stepRun cfg nB nK inc kinc true r' (tb + inc) (tk + kinc)
            (stepWrite cfg (tb + inc) (tk + kinc) s)
            (List.replicate (n - 1) Arrival.tick ++ Arrival.x e :: rest) := by
        rw [stepRun_succ_eq]
        simp only [if_neg hr0]
        rw [xpeek_tick (stepWrite cfg (tb + inc) (tk + kinc) s) _ hx2 hp2]
        rfl
      rw [hrep, hstep]
      have hih := ih r' (tb + inc) (tk + kinc) (stepWrite cfg (tb + inc) (tk + kinc) s)
        hn (by omega) hx2 hp2
      obtain ⟨hi1, hi2, hi3, hi4⟩ := hih
      refine ⟨hi1, ?_, ?_, ?_⟩
      · intro hS
        obtain ⟨ha, hb⟩ := hi2 hS
        constructor
        · rw [ha]
          push_cast
          ring
        · rw [hb]
          congr 1
          push_cast
          ring
      · intro hK
        obtain ⟨ha, hb⟩ := hi3 hK
        constructor
        · rw [ha]
          push_cast
          ring
        · rw [hb]
          congr 1
          push_cast
          ring
      · rw [hi4, stepWrite_writes]
        cases hS : screenOn cfg <;> cases hK : cfg.dim_kbd <;>
          simp [hS, hK] <;> omega

/-- C4: an interruptible stepper run that observes external activity after
step `k` (`1 ≤ k < steps`) stops immediately: each enabled channel's last
device write (and the device value) is the interpolated value of step `k`,
`start + k · increment`, and exactly `k` writes per enabled channel were
performed, none for any later step. -/
theorem c4_stepper_interrupt_stops (cfg : Cfg) (nB nK : ℚ) (steps k : Nat)
    (e : XEv) (rest : List Arrival) (s : St)
    (hk : 1 ≤ k) (hks : k < steps) (hp : s.pipeQ = [])
    (hz : ¬(stepIncOf (screenOn cfg) nB s.screen_dev steps = 0 ∧
           stepIncOf cfg.dim_kbd nK s.kbd_dev steps = 0)) :
    (stepper cfg nB nK steps true s
      (List.replicate (k-1) Arrival.tick ++ Arrival.x e :: rest)).2.2 = false ∧
    (screenOn cfg = true →
      (stepper cfg nB nK steps true s
        (List.replicate (k-1) Arrival.tick ++ Arrival.x e :: rest)).1.screen_dev =
        s.screen_dev + k * stepIncOf (screenOn cfg) nB s.screen_dev steps ∧
      (chanWrites Chan.screen
        (stepper cfg nB nK steps true s
          (List.replicate (k-1) Arrival.tick ++ Arrival.x e :: rest)).1.writes).getLast? =
        some (s.screen_dev + k * stepIncOf (screenOn cfg) nB s.screen_dev steps)) ∧
    (cfg.dim_kbd = true →
      (stepper cfg nB nK steps true s
        (List.replicate (k-1) Arrival.tick ++ Arrival.x e :: rest)).1.kbd_dev =
        s.kbd_dev + k * stepIncOf cfg.dim_kbd nK s.kbd_dev steps ∧
      (chanWrites Chan.kbd
        (stepper cfg nB nK steps true s
          (List.replicate (k-1) Arrival.tick ++ Arrival.x e :: rest)).1.writes).getLast? =
        some (s.kbd_dev + k * stepIncOf cfg.dim_kbd nK s.kbd_dev steps)) ∧
    (stepper cfg nB nK steps true s
      (List.replicate (k-1) Arrival.tick ++ Arrival.x e :: rest)).1.writes.length =
      s.writes.length + ((if screenOn cfg = true then k else 0) +
        (if cfg.dim_kbd = true then k else 0)) := by
  have hunf : stepper cfg nB nK steps true s
      (List.replicate (k-1) Arrival.tick ++ Arrival.x e :: rest) =
      stepRun cfg nB nK (stepIncOf (screenOn cfg) nB s.screen_dev steps)
        (stepIncOf cfg.dim_kbd nK s.kbd_dev steps) true steps
        s.screen_dev s.kbd_dev
        {s with calls := s.calls ++ [⟨nB, nK, steps, true⟩], xQ := []}
        (List.replicate (k-1) Arrival.tick ++ Arrival.x e :: rest) := by
    unfold stepper
    simp only
    rw [if_neg hz]
  have hres := stepRun_quiet_interrupt cfg nB nK
    (stepIncOf (screenOn cfg) nB s.screen_dev steps)
    (stepIncOf cfg.dim_kbd nK s.kbd_dev steps) e rest k steps
    s.screen_dev s.kbd_dev
    {s with calls := s.calls ++ [⟨nB, nK, steps, true⟩], xQ := []}
    hk hks rfl (by simpa using hp)
  rw [hunf]
  exact ⟨hres.1, hres.2.1, hres.2.2.1, by simpa using hres.2.2.2⟩

theorem c4_witness :
    1 ≤ 1 ∧ 1 < 20 ∧ st60.pipeQ = [] ∧
    ¬(stepIncOf (screenOn defCfg) 10 st60.screen_dev 20 = 0 ∧
      stepIncOf defCfg.dim_kbd 0 st60.kbd_dev 20 = 0) ∧
    (stepper defCfg 10 0 20 true st60 [Arrival.x XEv.other]).2.2 = false ∧
    (stepper defCfg 10 0 20 true st60 [Arrival.x XEv.other]).1.screen_dev = 115/2 ∧
    (chanWrites Chan.screen
      (stepper defCfg 10 0 20 true st60 [Arrival.x XEv.other]).1.writes).getLast? =
      some (115/2) ∧
    (stepper defCfg 10 0 20 true st60 [Arrival.x XEv.other]).1.writes.length = 1 := by
  have hz : ¬(stepIncOf (screenOn defCfg) 10 st60.screen_dev 20 = 0 ∧
      stepIncOf defCfg.dim_kbd 0 st60.kbd_dev 20 = 0) := by
    norm_num [stepIncOf, ctrunc, screenOn, defCfg, st60]
  have h := c4_stepper_interrupt_stops defCfg 10 0 20 1 XEv.other [] st60
    (by norm_num) (by norm_num) rfl hz
  have henv : (List.replicate (1-1) Arrival.tick ++ Arrival.x XEv.other :: [] :
      List Arrival) = [Arrival.x XEv.other] := by simp
  rw [henv] at h
  have hS : screenOn defCfg = true := by norm_num [screenOn, defCfg]
  have hval : st60.screen_dev + (1 : ℕ) *
      stepIncOf (screenOn defCfg) 10 st60.screen_dev 20 = 115/2 := by
    norm_num [stepIncOf, ctrunc, screenOn, defCfg, st60]
  refine ⟨by norm_num, by norm_num, rfl, hz, h.1, ?_, ?_, ?_⟩
  · rw [(h.2.1 hS).1, hval]
  · rw [(h.2.1 hS).2, hval]
  · rw [h.2.2.2]
    norm_num [screenOn, defCfg, st60]

/-- Closed form of a non-interruptible step loop on a screen-only
configuration: the writes are the interpolation ramp and the device ends at
the target. -/
theorem stepRun_noInter_screen (cfg : Cfg) (hS : screenOn cfg = true)
    (hK : cfg.dim_kbd = false) (nB nK inc kinc : ℚ) :
    ∀ (r : Nat) (tb tk : ℚ) (s : St) (env : List Arrival), 1 ≤ r →
      stepRun cfg nB nK inc kinc false r tb tk s env =
        ({s with
          screen_dev := nB,
          writes := s.writes ++ (rampFrom nB inc r tb).map (fun v => (Chan.screen, v))},
         env, true) := by
  intro r
  induction r with
  | zero => intro tb tk s env hr; omega
  | succ n ih =>
    intro tb tk s env hr
    rcases Nat.eq_zero_or_pos n with hn | hn
    · subst hn
      rw [stepRun_succ_eq]
      simp only [if_pos rfl, reduceIte]
      show stepRun cfg nB nK inc kinc false 0 nB nK (stepWrite cfg nB nK s) env = _
      simp only [stepRun]
      rw [Prod.mk.injEq, Prod.mk.injEq]
      refine ⟨?_, rfl, rfl⟩
      simp [stepWrite, hS, hK, backlight_set, rampFrom]
    · have hn0 : n ≠ 0 := by omega
      rw [stepRun_succ_eq]
      simp only [if_neg hn0]
      show stepRun cfg nB nK inc kinc false n (tb + inc) (tk + kinc)
        (stepWrite cfg (tb + inc) (tk + kinc) s) env = _
      rw [ih (tb + inc) (tk + kinc) (stepWrite cfg (tb + inc) (tk + kinc) s) env hn]
      rw [Prod.mk.injEq, Prod.mk.injEq]
      refine ⟨?_, rfl, rfl⟩
      have hramp : rampFrom nB inc (n + 1) tb =
          (tb + inc) :: rampFrom nB inc n (tb + inc) := by
        rw [rampFrom]
        simp [hn0]
      rw [hramp]
      simp [stepWrite, hS, hK, backlight_set]

/-- Closed form of a quiet interruptible step loop (screen-only
configuration, all inner 1ms polls time out on an exhausted timeline). -/
theorem stepRun_quiet_screen (cfg : Cfg) (hS : screenOn cfg = true)
    (hK : cfg.dim_kbd = false) (nB nK inc kinc : ℚ) :
    ∀ (r : Nat) (tb tk : ℚ) (s : St), 1 ≤ r → s.xQ = [] → s.pipeQ = [] →
      stepRun cfg nB nK inc kinc true r tb tk s [] =
        ({s with
          screen_dev := nB,
          writes := s.writes ++ (rampFrom nB inc r tb).map (fun v => (Chan.screen, v))},
         [], true) := by
  intro r
  induction r with
  | zero => intro tb tk s hr; omega
  | succ n ih =>
    intro tb tk s hr hx hp
    have hx2 : ∀ vb vk, (stepWrite cfg vb vk s).xQ = [] := by simp [hx]
    have hp2 : ∀ vb vk, (stepWrite cfg vb vk s).pipeQ = [] := by simp [hp]
    rcases Nat.eq_zero_or_pos n with hn | hn
    · subst hn
      rw [stepRun_succ_eq]
      simp only [if_pos rfl, reduceIte]
      rw [show XPeekEventOrTimeout false (stepWrite cfg nB nK s) [] =
          some (false, stepWrite cfg nB nK s, []) from by
        rw [xpeek_nil_eq, hx2, hp2]
        rfl]
      show stepRun cfg nB nK inc kinc true 0 nB nK (stepWrite cfg nB nK s) [] = _
      simp only [stepRun]
      rw [Prod.mk.injEq, Prod.mk.injEq]
      refine ⟨?_, rfl, rfl⟩
      simp [stepWrite, hS, hK, backlight_set, rampFrom]
    · have hn0 : n ≠ 0 := by omega
      rw [stepRun_succ_eq]
      simp only [if_neg hn0]
      rw [show XPeekEventOrTimeout false (stepWrite cfg (tb + inc) (tk + kinc) s) [] =
          some (false, stepWrite cfg (tb + inc) (tk + kinc) s, []) from by
        rw [xpeek_nil_eq, hx2, hp2]
        rfl]
      show stepRun cfg nB nK inc kinc true n (tb + inc) (tk + kinc)
        (stepWrite cfg (tb + inc) (tk + kinc) s) [] = _
      rw [ih (tb + inc) (tk + kinc) (stepWrite cfg (tb + inc) (tk + kinc) s) hn
        (hx2 _ _) (hp2 _ _)]
      rw [Prod.mk.injEq, Prod.mk.injEq]
      refine ⟨?_, rfl, rfl⟩
      have hramp : rampFrom nB inc (n + 1) tb =
          (tb + inc) :: rampFrom nB inc n (tb + inc) := by
        rw [rampFrom]
        simp [hn0]
      rw [hramp]
      simp [stepWrite, hS, hK, backlight_set]

/-- The increment `stepIncOf` vanishes when the channel is disabled or target and current
truncate to the same integer. -/
theorem stepIncOf_zero_of {en : Bool} {t c : ℚ} {k : Nat}
    (h : en = true → ctrunc t = ctrunc c) : stepIncOf en t c k = 0 := by
  unfold stepIncOf
  split
  · rename_i hc
    exact absurd (h hc.1) hc.2
  · rfl

/-- When, for every enabled channel, target and current truncate to the
same integer, the stepper hits its zero-increment early return. -/
theorem stepper_skip_trunc_eq (cfg : Cfg) (nB nK : ℚ) (steps : Nat)
    (inter : Bool) (s : St) (env : List Arrival)
    (hsc : screenOn cfg = true → ctrunc nB = ctrunc s.screen_dev)
    (hkb : cfg.dim_kbd = true → ctrunc nK = ctrunc s.kbd_dev) :
    stepper cfg nB nK steps inter s env =
      ({s with calls := s.calls ++ [⟨nB, nK, steps, inter⟩]}, env, true) := by
  have h1 : stepIncOf (screenOn cfg) nB s.screen_dev steps = 0 :=
    stepIncOf_zero_of hsc
  have h2 : stepIncOf cfg.dim_kbd nK s.kbd_dev steps = 0 :=
    stepIncOf_zero_of hkb
  unfold stepper
  simp only
  rw [if_pos ⟨h1, h2⟩]

/-- C5 (amended): when, for every enabled channel, target and current
brightness truncate (C `(int)` cast) to the same integer percentage, the
stepper returns before entering its step loop: the state is unchanged apart
from the ghost record of the invocation, so zero device writes occur. -/
theorem c5_trunc_equal_skips (cfg : Cfg) (nB nK : ℚ) (steps : Nat)
    (inter : Bool) (s : St) (env : List Arrival)
    (hsc : screenOn cfg = true → ctrunc nB = ctrunc s.screen_dev)
    (hkb : cfg.dim_kbd = true → ctrunc nK = ctrunc s.kbd_dev) :
    stepper cfg nB nK steps inter s env =
      ({s with calls := s.calls ++ [⟨nB, nK, steps, inter⟩]}, env, true) :=
  stepper_skip_trunc_eq cfg nB nK steps inter s env hsc hkb

theorem c5_witness :
    (screenOn defCfg = true →
      ctrunc (109/10 : ℚ) = ctrunc (({st60 with screen_dev := 21/2}).screen_dev)) ∧
    (defCfg.dim_kbd = true →
      ctrunc (0 : ℚ) = ctrunc (({st60 with screen_dev := 21/2}).kbd_dev)) ∧
    (stepper defCfg (109/10) 0 20 true {st60 with screen_dev := 21/2} []).1.writes =
      ({st60 with screen_dev := 21/2}).writes := by
  have hsc : screenOn defCfg = true →
      ctrunc (109/10 : ℚ) = ctrunc (({st60 with screen_dev := 21/2}).screen_dev) := by
    intro h
    norm_num [ctrunc, st60]
  have hkb : defCfg.dim_kbd = true →
      ctrunc (0 : ℚ) = ctrunc (({st60 with screen_dev := 21/2}).kbd_dev) := by
    intro h
    simp [defCfg] at h
  refine ⟨hsc, hkb, ?_⟩
  rw [c5_trunc_equal_skips defCfg (109/10) 0 20 true {st60 with screen_dev := 21/2} []
    hsc hkb]

/-- C5 (counterexample): round-to-nearest equality does not make the
stepper a no-op.  With the screen at 10.6% and target 11.4% both round to
11, yet the C `(int)` casts differ (10 vs 11), so the stepper enters its
loop and performs five device writes. -/
theorem c5_counterexample :
    cround (57/5 : ℚ) = cround ((({st60 with screen_dev := 53/5}).screen_dev)) ∧
    defCfg.dim_kbd = false ∧
    (stepper defCfg (57/5) 0 5 false {st60 with screen_dev := 53/5} []).1.writes.length = 5 ∧
    (stepper defCfg (57/5) 0 5 false {st60 with screen_dev := 53/5} []).1.writes ≠ [] := by
  have hlist :
      (stepper defCfg (57/5) 0 5 false {st60 with screen_dev := 53/5} []).1.writes =
        [(Chan.screen, 269/25), (Chan.screen, 273/25), (Chan.screen, 277/25),
         (Chan.screen, 281/25), (Chan.screen, 57/5)] := by
    norm_num [stepper, stepRun, stepWrite, backlight_set, stepIncOf, ctrunc,
      screenOn, defCfg, st60]
  refine ⟨by norm_num [cround, st60], by norm_num [defCfg], ?_, ?_⟩ <;>
    simp [hlist]

/-- The twenty screen writes of the default dim fade from 60% to 10%. -/
def dimWrites : List (Chan × ℚ) :=
  [(Chan.screen, 115/2), (Chan.screen, 55), (Chan.screen, 105/2), (Chan.screen, 50),
   (Chan.screen, 95/2), (Chan.screen, 45), (Chan.screen, 85/2), (Chan.screen, 40),
   (Chan.screen, 75/2), (Chan.screen, 35), (Chan.screen, 65/2), (Chan.screen, 30),
   (Chan.screen, 55/2), (Chan.screen, 25), (Chan.screen, 45/2), (Chan.screen, 20),
   (Chan.screen, 35/2), (Chan.screen, 15), (Chan.screen, 25/2), (Chan.screen, 10)]

/-- Engine state after the C9 scenario's dim transition: reset alarm armed,
pre-dim target 60 saved, device at 10, the twenty ramp writes recorded,
`dimmed` set. -/
def c9S1 : St :=
  ⟨[], [], false, true, false, false, 60, -1, -1, [], 10, 0, dimWrites,
   [⟨10, 0, 20, true⟩], [AlarmKind.reset]⟩

theorem c9_ramp_eval :
    rampFrom 10 (-5/2) 20 60 =
      [115/2, 55, 105/2, 50, 95/2, 45, 85/2, 40, 75/2, 35,
       65/2, 30, 55/2, 25, 45/2, 20, 35/2, 15, 25/2, 10] := by
  norm_num [rampFrom]

theorem c9_stepper_eval :
    stepper defCfg 10 0 20 true
      ⟨[], [], false, false, false, false, 60, -1, -1, [], 60, 0, [], [],
       [AlarmKind.reset]⟩ [] =
      (⟨[], [], false, false, false, false, 60, -1, -1, [], 10, 0, dimWrites,
        [⟨10, 0, 20, true⟩], [AlarmKind.reset]⟩, [], true) := by
  have hz : ¬(stepIncOf (screenOn defCfg) 10 (60 : ℚ) 20 = 0 ∧
      stepIncOf defCfg.dim_kbd 0 (0 : ℚ) 20 = 0) := by
    norm_num [stepIncOf, ctrunc, screenOn, defCfg]
  have hinc : stepIncOf (screenOn defCfg) 10 (60 : ℚ) 20 = -5/2 := by
    norm_num [stepIncOf, ctrunc, screenOn, defCfg]
  have hkinc : stepIncOf defCfg.dim_kbd 0 (0 : ℚ) 20 = 0 := by
    norm_num [stepIncOf, defCfg]
  unfold stepper
  simp only
  rw [if_neg hz, hinc, hkinc]
  rw [stepRun_quiet_screen defCfg (by norm_num [screenOn, defCfg])
    (by norm_num [defCfg]) 10 0 (-5/2) 0 20 60 0 _ (by norm_num) rfl rfl]
  rw [c9_ramp_eval]
  norm_num [dimWrites]

/-- C9: with `dim_pct = 10`, `dim_steps = 20` and the screen at 60%, the
idle-alarm iteration performs exactly twenty screen writes, strictly
decreasing from 57.5 (below 60) down to exactly 10 on the final write, and
then records the engine as dimmed. -/
theorem c9_default_dim_scenario :
    xloop_iter defCfg st60 [Arrival.x XEv.idleAlarm] = (Step.cont, c9S1, []) ∧
    c9S1.writes.map Prod.snd =
      [115/2, 55, 105/2, 50, 95/2, 45, 85/2, 40, 75/2, 35,
       65/2, 30, 55/2, 25, 45/2, 20, 35/2, 15, 25/2, 10] ∧
    c9S1.writes.length = 20 ∧
    (∀ w ∈ c9S1.writes, w.1 = Chan.screen) ∧
    List.Chain' (fun a b => b < a) (c9S1.writes.map Prod.snd) ∧
    (c9S1.writes.map Prod.snd).head? = some (115/2) ∧ (115/2 : ℚ) < 60 ∧
    (c9S1.writes.map Prod.snd).getLast? = some 10 ∧
    c9S1.dimmed = true := by
  refine ⟨?_, ?_, ?_, ?_, ?_, ?_, ?_, ?_, ?_⟩
  · unfold xloop_iter
    rw [show XPeekEventOrTimeout (!defCfg.use_als) st60 [Arrival.x XEv.idleAlarm] =
        some (true, {st60 with xQ := [XEv.idleAlarm]}, []) from by
      rw [xpeek_x _ st60 XEv.idleAlarm [] rfl rfl,
        xpeek_xq_cons _ _ [] XEv.idleAlarm [] rfl]]
    norm_num [st60, afterAlarm, set_alarm, c9S1, c9_stepper_eval]
  · norm_num [c9S1, dimWrites]
  · norm_num [c9S1, dimWrites]
  · intro w hw
    simp only [c9S1, dimWrites] at hw
    fin_cases hw <;> rfl
  · norm_num [c9S1, dimWrites, List.chain'_cons]
  · norm_num [c9S1, dimWrites]
  · norm_num
  · norm_num [c9S1, dimWrites]
  · norm_num [c9S1]

/-- Unfolding equation of the fuelled loop. -/
theorem xloop_go_succ_eq (cfg : Cfg) (f : Nat) (s : St) (env : List Arrival) :
    xloop_go cfg (f + 1) s env =
      (match xloop_iter cfg s env with
       | (.cont, s1, env1) => xloop_go cfg f s1 env1
       | (.brk, s1, env1) => (.brk, s1, env1)
       | (.blocked, s1, env1) => (.blocked, s1, env1)) := rfl

/-- C10: a `ForceDim` message consumed while the engine is already dimmed,
and a `ForceBrighten` message consumed while it is not dimmed, are no-ops
beyond clearing the force flags: the iteration performs no device write,
arms no alarm, leaves `dimmed` and the saved restore targets untouched, and
only dequeues the message. -/
theorem c10_stale_force_noop (cfg : Cfg) (s : St) (env : List Arrival)
    (q : List Msg) (hx : s.xQ = []) (hex : s.exiting = false) :
    (s.pipeQ = Msg.mdim :: q → s.dimmed = true →
      xloop_iter cfg s env =
        (Step.cont,
         {s with pipeQ := q, force_dim := false, force_brighten := false}, env)) ∧
    (s.pipeQ = Msg.mbrighten :: q → s.dimmed = false → s.force_dim = false →
      xloop_iter cfg s env =
        (Step.cont,
         {s with pipeQ := q, force_dim := false, force_brighten := false}, env)) := by
  constructor
  · intro hp hd
    unfold xloop_iter
    rw [xpeek_pipe (!cfg.use_als) s env Msg.mdim q hx hp]
    simp [applyMsg, afterAlarm, hex, hd]
  · intro hp hd hfd
    unfold xloop_iter
    rw [xpeek_pipe (!cfg.use_als) s env Msg.mbrighten q hx hp]
    simp [applyMsg, afterAlarm, hex, hd, hfd]

theorem c10_witness :
    ({st60 with dimmed := true, pipeQ := [Msg.mdim]}).xQ = [] ∧
    ({st60 with dimmed := true, pipeQ := [Msg.mdim]}).exiting = false ∧
    xloop_iter defCfg {st60 with dimmed := true, pipeQ := [Msg.mdim]} [] =
      (Step.cont,
       {st60 with
        dimmed := true, pipeQ := ([] : List Msg), force_dim := false,
        force_brighten := false}, []) ∧
    xloop_iter defCfg {st60 with pipeQ := [Msg.mbrighten]} [] =
      (Step.cont,
       {st60 with
        pipeQ := ([] : List Msg), force_dim := false,
        force_brighten := false}, []) := by
  refine ⟨rfl, rfl, ?_, ?_⟩
  · exact (c10_stale_force_noop defCfg
      {st60 with dimmed := true, pipeQ := [Msg.mdim]} [] [] rfl rfl).1 rfl rfl
  · exact (c10_stale_force_noop defCfg
      {st60 with pipeQ := [Msg.mbrighten]} [] [] rfl rfl).2 rfl rfl rfl

/-- C6: control messages are consumed one per wait-point poll, head of the
pipe first; once an Exit notification has occurred (`bail` sets `exiting`
at signal-delivery time, before any further consumption), the loop breaks
at the very next consumption — even when earlier-enqueued Force* messages
are still pending — without any device write, alarm arming, stepper
invocation or `dimmed` change. -/
theorem c6_exit_terminates_next_poll (cfg : Cfg) (s : St) (env : List Arrival)
    (fuel : Nat) (m : Msg) (q : List Msg)
    (hex : s.exiting = true) (hx : s.xQ = []) (hp : s.pipeQ = m :: q) :
    XPeekEventOrTimeout (!cfg.use_als) s env =
      some (true, applyMsg m {s with pipeQ := q}, env) ∧
    xloop_go cfg (fuel + 1) s env = (.brk, applyMsg m {s with pipeQ := q}, env) ∧
    (applyMsg m {s with pipeQ := q}).writes = s.writes ∧
    (applyMsg m {s with pipeQ := q}).armed = s.armed ∧
    (applyMsg m {s with pipeQ := q}).calls = s.calls ∧
    (applyMsg m {s with pipeQ := q}).dimmed = s.dimmed := by
  have hiter : xloop_iter cfg s env =
      (.brk, applyMsg m {s with pipeQ := q}, env) := by
    unfold xloop_iter
    rw [xpeek_pipe (!cfg.use_als) s env m q hx hp]
    cases m <;> simp [applyMsg, hex]
  refine ⟨xpeek_pipe (!cfg.use_als) s env m q hx hp, ?_, ?_, ?_, ?_, ?_⟩
  · rw [xloop_go_succ_eq, hiter]
  · cases m <;> simp [applyMsg]
  · cases m <;> simp [applyMsg]
  · cases m <;> simp [applyMsg]
  · cases m <;> simp [applyMsg]

theorem c6_witness :
    ({st60 with exiting := true, pipeQ := [Msg.mdim, Msg.mexit]}).exiting = true ∧
    ({st60 with exiting := true, pipeQ := [Msg.mdim, Msg.mexit]}).xQ = [] ∧
    xloop_go defCfg 1 {st60 with exiting := true, pipeQ := [Msg.mdim, Msg.mexit]} [] =
      (.brk, {st60 with exiting := true, pipeQ := [Msg.mexit], force_dim := true}, []) ∧
    ({st60 with exiting := true, pipeQ := [Msg.mexit], force_dim := true}).writes =
      st60.writes ∧
    ({st60 with exiting := true, pipeQ := [Msg.mexit], force_dim := true}).armed =
      st60.armed := by
  have h := c6_exit_terminates_next_poll defCfg
    {st60 with exiting := true, pipeQ := [Msg.mdim, Msg.mexit]} [] 0
    Msg.mdim [Msg.mexit] rfl rfl rfl
  exact ⟨rfl, rfl, h.2.1, rfl, rfl⟩

/-- Configuration for the C2 counterexample: dim target 60%, otherwise the
defaults (screen only, 20 dim steps, 5 brighten steps). -/
def cfgC2 : Cfg := ⟨true, false, false, 60, 20, 5⟩

@[simp]
theorem cfgC2_dim_screen : cfgC2.dim_screen = true := rfl

@[simp]
theorem cfgC2_dim_kbd : cfgC2.dim_kbd = false := rfl

@[simp]
theorem cfgC2_use_als : cfgC2.use_als = false := rfl

@[simp]
theorem cfgC2_dim_pct : cfgC2.dim_pct = 60 := rfl

@[simp]
theorem cfgC2_dim_steps : cfgC2.dim_steps = 20 := rfl

@[simp]
theorem cfgC2_brighten_steps : cfgC2.brighten_steps = 5 := rfl

@[simp]
theorem screenOn_cfgC2 : screenOn cfgC2 = true := rfl

/-- Engine state after the C3 scenario's first iteration: the dim fade was
interrupted after one step (57.5%) by the reset alarm firing; the reset
event is still queued (it was only peeked), `dimmed` is set. -/
def c3S1 : St :=
  ⟨[XEv.resetAlarm], [], false, true, false, false, 60, -1, -1, [], 115/2, 0,
   [(Chan.screen, 115/2)], [⟨10, 0, 20, true⟩], [AlarmKind.reset]⟩

/-- Engine state after the C3 scenario's second iteration: the queued reset
event triggered Brightening, which restored the screen to 60% over the
configured five brighten steps (58, 58.5, 59, 59.5, 60). -/
def c3S2 : St :=
  ⟨[], [], false, false, false, false, 60, -1, -1, [], 60, 0,
   [(Chan.screen, 115/2), (Chan.screen, 58), (Chan.screen, 117/2),
    (Chan.screen, 59), (Chan.screen, 119/2), (Chan.screen, 60)],
   [⟨10, 0, 20, true⟩, ⟨60, -1, 5, false⟩], [AlarmKind.reset, AlarmKind.idle]⟩

theorem c3_dim_stepper_eval :
    stepper defCfg 10 0 20 true
      ⟨[], [], false, false, false, false, 60, -1, -1, [], 60, 0, [], [],
       [AlarmKind.reset]⟩ [Arrival.x XEv.resetAlarm] =
      (⟨[XEv.resetAlarm], [], false, false, false, false, 60, -1, -1, [],
        115/2, 0, [(Chan.screen, 115/2)], [⟨10, 0, 20, true⟩],
        [AlarmKind.reset]⟩, [], false) := by
  norm_num [stepper, stepRun, stepWrite, backlight_set, stepIncOf, ctrunc,
    xpeek_cons_eq, xpeek_nil_eq]

theorem c3_iter1 :
    xloop_iter defCfg st60 [Arrival.x XEv.idleAlarm, Arrival.x XEv.resetAlarm] =
      (Step.cont, c3S1, []) := by
  unfold xloop_iter
  rw [show XPeekEventOrTimeout (!defCfg.use_als) st60
      [Arrival.x XEv.idleAlarm, Arrival.x XEv.resetAlarm] =
      some (true, {st60 with xQ := [XEv.idleAlarm]}, [Arrival.x XEv.resetAlarm])
      from by
    rw [xpeek_x _ _ XEv.idleAlarm _ rfl rfl,
      xpeek_xq_cons _ _ _ XEv.idleAlarm [] rfl]]
  norm_num [st60, afterAlarm, set_alarm, c3S1, c3_dim_stepper_eval]

theorem c3_brighten_stepper_eval :
    stepper defCfg 60 (-1) 5 false
      ⟨[], [], false, true, false, false, 60, -1, -1, [], 115/2, 0,
       [(Chan.screen, 115/2)], [⟨10, 0, 20, true⟩],
       [AlarmKind.reset, AlarmKind.idle]⟩ [] =
      (⟨[], [], false, true, false, false, 60, -1, -1, [], 60, 0,
        [(Chan.screen, 115/2), (Chan.screen, 58), (Chan.screen, 117/2),
         (Chan.screen, 59), (Chan.screen, 119/2), (Chan.screen, 60)],
        [⟨10, 0, 20, true⟩, ⟨60, -1, 5, false⟩],
        [AlarmKind.reset, AlarmKind.idle]⟩, [], true) := by
  norm_num [stepper, stepRun, stepWrite, backlight_set, stepIncOf, ctrunc]

theorem c3_iter2 :
    xloop_iter defCfg c3S1 [] = (Step.cont, c3S2, []) := by
  unfold xloop_iter
  rw [xpeek_xq_cons (!defCfg.use_als) c3S1 [] XEv.resetAlarm []
    (show c3S1.xQ = [XEv.resetAlarm] from rfl)]
  norm_num [c3S1, afterAlarm, set_alarm, c3S2, c3_brighten_stepper_eval]

/-- C3 (counterexample): a dim interrupted by activity is followed by a
restore over the configured `brighten_steps` (five stepper steps here),
not over a step count of 1; `force_brighten` is 0 on this path, so
`force_brighten ? 1 : brighten_steps` selects `brighten_steps`. -/
theorem c3_counterexample :
    (xloop_go defCfg 2 st60
      [Arrival.x XEv.idleAlarm, Arrival.x XEv.resetAlarm]).2.1.calls =
      [⟨10, 0, 20, true⟩, ⟨60, -1, 5, false⟩] ∧
    (∀ c ∈ (xloop_go defCfg 2 st60
      [Arrival.x XEv.idleAlarm, Arrival.x XEv.resetAlarm]).2.1.calls.getLast?,
      c.steps = 5 ∧ c.steps ≠ 1) ∧
    (xloop_go defCfg 2 st60
      [Arrival.x XEv.idleAlarm, Arrival.x XEv.resetAlarm]).2.1.writes.length = 6 := by
  have hgo : xloop_go defCfg 2 st60
      [Arrival.x XEv.idleAlarm, Arrival.x XEv.resetAlarm] =
      (LoopEnd.fuel, c3S2, []) := by
    rw [xloop_go_succ_eq, c3_iter1]
    show xloop_go defCfg 1 c3S1 [] = _
    rw [xloop_go_succ_eq, c3_iter2]
    rfl
  rw [hgo]
  refine ⟨rfl, ?_, rfl⟩
  intro c hc
  simp only [c3S2, List.getLast?] at hc
  norm_num [c3S2] at hc
  subst hc
  exact ⟨rfl, by norm_num⟩

/-- C3 (amended): after the dim stepper reports early interruption, the
next loop iteration consumes the still-queued reset event and brightens
back to the pre-dim target — over the configured `brighten_steps`
(5 by default), not over a single step; the restore does reach exactly the
pre-dim value and clears `dimmed`. -/
theorem c3_interrupted_dim_brightens (fuel : Nat) :
    xloop_go defCfg (fuel + 2) st60
      [Arrival.x XEv.idleAlarm, Arrival.x XEv.resetAlarm] =
      xloop_go defCfg fuel c3S2 [] ∧
    c3S2.calls.map StepCall.steps = [defCfg.dim_steps, defCfg.brighten_steps] ∧
    defCfg.brighten_steps = 5 ∧
    c3S2.screen_dev = 60 ∧ c3S2.backlight = 60 ∧ c3S2.dimmed = false ∧
    c3S2.writes.getLast? = some (Chan.screen, 60) := by
  refine ⟨?_, rfl, rfl, rfl, rfl, rfl, rfl⟩
  rw [xloop_go_succ_eq, c3_iter1]
  show xloop_go defCfg (fuel + 1) c3S1 [] = _
  rw [xloop_go_succ_eq, c3_iter2]

theorem c3_witness :
    xloop_go defCfg 2 st60 [Arrival.x XEv.idleAlarm, Arrival.x XEv.resetAlarm] =
      xloop_go defCfg 0 c3S2 [] ∧
    c3S2.calls.map StepCall.steps = [defCfg.dim_steps, defCfg.brighten_steps] ∧
    defCfg.brighten_steps = 5 ∧
    c3S2.screen_dev = 60 ∧ c3S2.backlight = 60 ∧ c3S2.dimmed = false ∧
    c3S2.writes.getLast? = some (Chan.screen, 60) :=
  c3_interrupted_dim_brightens 0

/-- C7 (amended): ambient hysteresis absorbs a new sample exactly when the
absolute difference of the truncated integer lux values is strictly less
than 10 (9 or fewer): the last-accepted lux is updated but no profile
lookup and no stepper invocation occurs.  A difference of exactly 10 is
not absorbed. -/
theorem c7_hysteresis_absorbs (cfg : Cfg) (s : St) (env : List Arrival)
    (lux : ℚ) (lrest : List ℚ)
    (hl : s.luxs = lux :: lrest) (h0 : ¬ ctrunc s.als < 0)
    (hdiff : |ctrunc lux - ctrunc s.als| < 10) :
    als_fetch cfg s env = ({s with als := lux, luxs := lrest}, env) ∧
    (als_fetch cfg s env).1.calls = s.calls ∧
    (als_fetch cfg s env).1.writes = s.writes := by
  have heq : als_fetch cfg s env = ({s with als := lux, luxs := lrest}, env) := by
    unfold als_fetch
    rw [hl]
    simp [h0, hdiff]
  exact ⟨heq, by rw [heq], by rw [heq]⟩

theorem c7_witness :
    ({st60 with als := 100, luxs := [105]}).luxs = 105 :: [] ∧
    ¬ ctrunc ({st60 with als := 100, luxs := [105]}).als < 0 ∧
    |ctrunc (105 : ℚ) - ctrunc ({st60 with als := 100, luxs := [105]}).als| < 10 ∧
    als_fetch defCfg {st60 with als := 100, luxs := [105]} [] =
      ({{st60 with als := 100, luxs := [105]} with als := 105, luxs := []}, []) ∧
    (als_fetch defCfg {st60 with als := 100, luxs := [105]} []).1.calls =
      ({st60 with als := 100, luxs := [105]}).calls := by
  have h0 : ¬ ctrunc ({st60 with als := 100, luxs := [105]}).als < 0 := by
    norm_num [ctrunc, st60]
  have hdiff : |ctrunc (105 : ℚ) - ctrunc ({st60 with als := 100, luxs := [105]}).als| < 10 := by
    norm_num [ctrunc, st60]
  have h := c7_hysteresis_absorbs defCfg {st60 with als := 100, luxs := [105]} []
    105 [] rfl h0 hdiff
  exact ⟨rfl, h0, hdiff, h.1, h.2.1⟩

/-- Configuration with ambient adaptation enabled (`-a`), otherwise the
defaults. -/
def cfgA : Cfg := ⟨true, false, true, 10, 20, 5⟩

@[simp]
theorem cfgA_dim_screen : cfgA.dim_screen = true := rfl

@[simp]
theorem cfgA_dim_kbd : cfgA.dim_kbd = false := rfl

@[simp]
theorem cfgA_use_als : cfgA.use_als = true := rfl

@[simp]
theorem cfgA_dim_steps : cfgA.dim_steps = 20 := rfl

@[simp]
theorem screenOn_cfgA : screenOn cfgA = true := rfl

/-- Screen writes of the first ambient transition (60% to 70%). -/
def alsW1 : List (Chan × ℚ) :=
  (rampFrom 70 (1/2) 20 60).map (fun v => (Chan.screen, v))

/-- Screen writes after the second ambient transition (70% to 80%). -/
def alsW2 : List (Chan × ℚ) :=
  alsW1 ++ (rampFrom 80 (1/2) 20 70).map (fun v => (Chan.screen, v))

theorem als_settings_reverse_eval :
    als_settings.reverse =
      [⟨"sunlight", 30001, 100, 0⟩,
       ⟨"cloudy outdoors", 10001, 90, 10⟩,
       ⟨"dim outdoors", 5001, 80, 20⟩,
       ⟨"bright indoors", 1001, 70, 30⟩,
       ⟨"normal indoors", 401, 60, 40⟩,
       ⟨"dim indoors", 201, 50, 50⟩,
       ⟨"dark indoors", 51, 40, 60⟩,
       ⟨"very dark", 11, 30, 70⟩,
       ⟨"pitch black", 0, 20, 80⟩] := rfl

theorem als_pick_4995 :
    als_pick 4995 = some ⟨"bright indoors", 1001, 70, 30⟩ := by
  rw [als_pick, als_settings_reverse_eval]
  norm_num [als_pick_from]

theorem als_pick_5005 :
    als_pick 5005 = some ⟨"dim outdoors", 5001, 80, 20⟩ := by
  rw [als_pick, als_settings_reverse_eval]
  norm_num [als_pick_from]

theorem c7_stepper1_eval :
    stepper cfgA 70 (-1) 20 false
      ⟨[], [], false, false, false, false, 60, -1, 400, [5005], 60, 0, [], [], []⟩
      [] =
      (⟨[], [], false, false, false, false, 60, -1, 400, [5005], 70, 0, alsW1,
        [⟨70, -1, 20, false⟩], []⟩, [], true) := by
  have hz : ¬(stepIncOf (screenOn cfgA) 70 (60 : ℚ) 20 = 0 ∧
      stepIncOf cfgA.dim_kbd (-1) (0 : ℚ) 20 = 0) := by
    norm_num [stepIncOf, ctrunc]
  have hinc : stepIncOf (screenOn cfgA) 70 (60 : ℚ) 20 = 1/2 := by
    norm_num [stepIncOf, ctrunc]
  have hkinc : stepIncOf cfgA.dim_kbd (-1) (0 : ℚ) 20 = 0 := by
    norm_num [stepIncOf]
  unfold stepper
  simp only
  rw [if_neg hz, hinc, hkinc]
  rw [stepRun_noInter_screen cfgA rfl rfl 70 (-1) (1/2) 0 20 60 0 _ _ (by norm_num)]
  norm_num [alsW1]

theorem c7_stepper2_eval :
    stepper cfgA 80 (-1) 20 false
      ⟨[], [], false, false, false, false, 70, -1, 4995, [], 70, 0, alsW1,
       [⟨70, -1, 20, false⟩], []⟩ [] =
      (⟨[], [], false, false, false, false, 70, -1, 4995, [], 80, 0, alsW2,
        [⟨70, -1, 20, false⟩, ⟨80, -1, 20, false⟩], []⟩, [], true) := by
  have hz : ¬(stepIncOf (screenOn cfgA) 80 (70 : ℚ) 20 = 0 ∧
      stepIncOf cfgA.dim_kbd (-1) (0 : ℚ) 20 = 0) := by
    norm_num [stepIncOf, ctrunc]
  have hinc : stepIncOf (screenOn cfgA) 80 (70 : ℚ) 20 = 1/2 := by
    norm_num [stepIncOf, ctrunc]
  have hkinc : stepIncOf cfgA.dim_kbd (-1) (0 : ℚ) 20 = 0 := by
    norm_num [stepIncOf]
  unfold stepper
  simp only
  rw [if_neg hz, hinc, hkinc]
  rw [stepRun_noInter_screen cfgA rfl rfl 80 (-1) (1/2) 0 20 70 0 _ _ (by norm_num)]
  norm_num [alsW2]

theorem c7_fetch1_eval :
    als_fetch cfgA
      ⟨[], [], false, false, false, false, 60, -1, 400, [4995, 5005], 60, 0,
       [], [], []⟩ [] =
      (⟨[], [], false, false, false, false, 70, -1, 4995, [5005], 70, 0, alsW1,
        [⟨70, -1, 20, false⟩], []⟩, []) := by
  unfold als_fetch alsApply
  norm_num [ctrunc, cround, als_pick_4995, c7_stepper1_eval]

theorem c7_fetch2_eval :
    als_fetch cfgA
      ⟨[], [], false, false, false, false, 70, -1, 4995, [5005], 70, 0, alsW1,
       [⟨70, -1, 20, false⟩], []⟩ [] =
      (⟨[], [], false, false, false, false, 80, -1, 5005, [], 80, 0, alsW2,
        [⟨70, -1, 20, false⟩, ⟨80, -1, 20, false⟩], []⟩, []) := by
  unfold als_fetch alsApply
  norm_num [ctrunc, cround, als_pick_5005, c7_stepper2_eval]

/-- C7 (counterexample): the hysteresis test is `abs(...) < 10` on
truncated lux, so a difference of exactly 10 is NOT absorbed: after
accepting 4995 lux (one stepper invocation toward 70%), the sample 5005 —
within 10 units of 4995 — triggers a profile lookup and a second stepper
invocation toward 80%. -/
theorem c7_counterexample :
    |(5005 : ℚ) - 4995| ≤ 10 ∧
    (als_fetch cfgA
      ⟨[], [], false, false, false, false, 60, -1, 400, [4995, 5005], 60, 0,
       [], [], []⟩ []).1.calls.length = 1 ∧
    (als_fetch cfgA
      (als_fetch cfgA
        ⟨[], [], false, false, false, false, 60, -1, 400, [4995, 5005], 60, 0,
         [], [], []⟩ []).1 []).1.calls.length = 2 := by
  rw [c7_fetch1_eval]
  refine ⟨by norm_num, rfl, ?_⟩
  show (als_fetch cfgA
    ⟨[], [], false, false, false, false, 70, -1, 4995, [5005], 70, 0, alsW1,
     [⟨70, -1, 20, false⟩], []⟩ []).1.calls.length = 2
  rw [c7_fetch2_eval]
  rfl

/-- C8: profile selection returns the highest-indexed entry of the
ascending table whose minimum lux is at most the sample (for any
nonnegative lux), and in particular 9000 lux selects the \"dim
outdoors\" entry with 80% screen and 20% keyboard. -/
theorem c8_profile_selection (lux : ℚ) (h : 0 ≤ lux) :
    (∃ i : Fin als_settings.length,
      als_pick lux = some (als_settings.get i) ∧
      ((als_settings.get i).min_lux : ℚ) ≤ lux ∧
      ∀ j : Fin als_settings.length, i < j →
        lux < ((als_settings.get j).min_lux : ℚ)) ∧
    als_pick 9000 = some ⟨"dim outdoors", 5001, 80, 20⟩ := by
  constructor
  · rw [als_pick, als_settings_reverse_eval]
    by_cases h8 : lux < (30001 : ℚ)
    · by_cases h7 : lux < (10001 : ℚ)
      · by_cases h6 : lux < (5001 : ℚ)
        · by_cases h5 : lux < (1001 : ℚ)
          · by_cases h4 : lux < (401 : ℚ)
            · by_cases h3 : lux < (201 : ℚ)
              · by_cases h2 : lux < (51 : ℚ)
                · by_cases h1 : lux < (11 : ℚ)
                  · refine ⟨⟨0, by norm_num [als_settings]⟩, ?_, ?_, ?_⟩
                    · norm_num [als_pick_from, als_settings, List.get, h8, h7, h6, h5, h4, h3, h2, h1, not_lt.mpr h]
                    · norm_num [als_settings, List.get]
                      exact h
                    · intro j hj
                      fin_cases j <;>
                        first
                        | exact absurd hj (by decide)
                        | (norm_num [als_settings, List.get]; linarith)
                  · refine ⟨⟨1, by norm_num [als_settings]⟩, ?_, ?_, ?_⟩
                    · norm_num [als_pick_from, als_settings, List.get, h8, h7, h6, h5, h4, h3, h2, h1]
                    · norm_num [als_settings, List.get]
                      linarith [not_lt.mp h1]
                    · intro j hj
                      fin_cases j <;>
                        first
                        | exact absurd hj (by decide)
                        | (norm_num [als_settings, List.get]; linarith)
                · refine ⟨⟨2, by norm_num [als_settings]⟩, ?_, ?_, ?_⟩
                  · norm_num [als_pick_from, als_settings, List.get, h8, h7, h6, h5, h4, h3, h2]
                  · norm_num [als_settings, List.get]
                    linarith [not_lt.mp h2]
                  · intro j hj
                    fin_cases j <;>
                      first
                      | exact absurd hj (by decide)
                      | (norm_num [als_settings, List.get]; linarith)
              · refine ⟨⟨3, by norm_num [als_settings]⟩, ?_, ?_, ?_⟩
                · norm_num [als_pick_from, als_settings, List.get, h8, h7, h6, h5, h4, h3]
                · norm_num [als_settings, List.get]
                  linarith [not_lt.mp h3]
                · intro j hj
                  fin_cases j <;>
                    first
                    | exact absurd hj (by decide)
                    | (norm_num [als_settings, List.get]; linarith)
            · refine ⟨⟨4, by norm_num [als_settings]⟩, ?_, ?_, ?_⟩
              · norm_num [als_pick_from, als_settings, List.get, h8, h7, h6, h5, h4]
              · norm_num [als_settings, List.get]
                linarith [not_lt.mp h4]
              · intro j hj
                fin_cases j <;>
                  first
                  | exact absurd hj (by decide)
                  | (norm_num [als_settings, List.get]; linarith)
          · refine ⟨⟨5, by norm_num [als_settings]⟩, ?_, ?_, ?_⟩
            · norm_num [als_pick_from, als_settings, List.get, h8, h7, h6, h5]
            · norm_num [als_settings, List.get]
              linarith [not_lt.mp h5]
            · intro j hj
              fin_cases j <;>
                first
                | exact absurd hj (by decide)
                | (norm_num [als_settings, List.get]; linarith)
        · refine ⟨⟨6, by norm_num [als_settings]⟩, ?_, ?_, ?_⟩
          · norm_num [als_pick_from, als_settings, List.get, h8, h7, h6]
          · norm_num [als_settings, List.get]
            linarith [not_lt.mp h6]
          · intro j hj
            fin_cases j <;>
              first
              | exact absurd hj (by decide)
              | (norm_num [als_settings, List.get]; linarith)
      · refine ⟨⟨7, by norm_num [als_settings]⟩, ?_, ?_, ?_⟩
        · norm_num [als_pick_from, als_settings, List.get, h8, h7]
        · norm_num [als_settings, List.get]
          linarith [not_lt.mp h7]
        · intro j hj
          fin_cases j <;>
            first
            | exact absurd hj (by decide)
            | (norm_num [als_settings, List.get]; linarith)
    · refine ⟨⟨8, by norm_num [als_settings]⟩, ?_, ?_, ?_⟩
      · norm_num [als_pick_from, als_settings, List.get, h8]
      · norm_num [als_settings, List.get]
        linarith [not_lt.mp h8]
      · intro j hj
        fin_cases j <;>
          first
          | exact absurd hj (by decide)
          | (norm_num [als_settings, List.get]; linarith)
  · rw [als_pick, als_settings_reverse_eval]
    norm_num [als_pick_from]

theorem c8_witness :
    0 ≤ (9000 : ℚ) ∧
    ((∃ i : Fin als_settings.length,
      als_pick 9000 = some (als_settings.get i) ∧
      ((als_settings.get i).min_lux : ℚ) ≤ 9000 ∧
      ∀ j : Fin als_settings.length, i < j →
        (9000 : ℚ) < ((als_settings.get j).min_lux : ℚ)) ∧
    als_pick 9000 = some ⟨"dim outdoors", 5001, 80, 20⟩) :=
  ⟨by norm_num, c8_profile_selection 9000 (by norm_num)⟩

end Xdimmer